import Mathlib

/-!
Shallow embedding of `src/index.py` (the `distribuir` webhook service) and
proofs about its allocation core.

Conventions of the embedding:
* Python floats are modelled as `Rat`; the decimal parsing done by `float(...)`
  on Monday column strings is modelled by `pyFloat?` (sign, digits, optional
  fractional part; exponents, `inf`/`nan`, underscores and surrounding
  whitespace are not modelled, no claim depends on them).
* A Monday column value arrives as a raw JSON-encoded string.  The code reads
  it through two different views: numeric columns operate on the raw string,
  the status columns go through `json.loads`.  A `Col` therefore carries both
  the raw string and the decoded view (`JVal`), which by construction is the
  result of decoding the raw string; only JSON objects are modelled, since
  non-object decodings are never classified as a currency or a status label.
* External Monday API calls are modelled by an `Env` of response oracles; each
  attempted mutation is logged as an `ApiCall` so that "no write happened"
  is expressible.
-/

namespace Distribuir

/-- Python truthiness default: `x or d` for an optional string `x`
(`None` and `""` are falsy). -/
def pyOr (x : Option String) (d : String) : String :=
  match x with
  | none => d
  | some s => if s = "" then d else s

/-- Python `str.upper()` restricted to the alphabet this service meets:
ASCII letters plus the accented `ó` used by "DÓLAR". -/
def pyUpperChar (c : Char) : Char :=
  if c = Char.ofNat 243 then Char.ofNat 211 else c.toUpper

/-- Uppercase a whole string the way `str.upper()` does on this alphabet. -/
def pyUpper (s : String) : String := String.map pyUpperChar s

/-- Whether `kw` occurs as a contiguous sublist of the second list. -/
def isSubList (kw : List Char) : List Char → Bool
  | [] => kw.isEmpty
  | c :: rest => List.isPrefixOf kw (c :: rest) || isSubList kw rest

/-- Python `kw in s` on strings: `kw` occurs as a contiguous substring of `s`. -/
def pyContains (s kw : String) : Bool := isSubList kw.data s.data

/-- Numeric value of a list of decimal digit characters. -/
def digitsVal (ds : List Char) : Nat :=
  ds.foldl (fun a c => a * 10 + (c.toNat - 48)) 0

/-- Parse an unsigned decimal literal (digits with an optional single dot), as
Python `float` accepts for the column strings this service reads. -/
def parseUnsigned (cs : List Char) : Option Rat :=
  let intPart := cs.takeWhile Char.isDigit
  let rest := cs.dropWhile Char.isDigit
  match rest with
  | [] => if intPart.isEmpty then none else some ((digitsVal intPart : Nat) : Rat)
  | c :: frac =>
    if c = '.' && frac.all Char.isDigit && !(intPart.isEmpty && frac.isEmpty) then
      some (((digitsVal (intPart ++ frac) : Nat) : Rat) / ((10 : Rat) ^ frac.length))
    else
      none

/-- Python `float(s)` on the decimal literals found in Monday numeric columns;
`none` models the `ValueError` branch. -/
def pyFloat? (s : String) : Option Rat :=
  match s.data with
  | [] => none
  | c :: rest =>
    if c = '-' then (parseUnsigned rest).map (fun q => -q)
    else if c = '+' then parseUnsigned rest
    else parseUnsigned (c :: rest)

/-- The double-quote character, written by code point to keep literals plain. -/
def quoteChar : Char := Char.ofNat 34

/-- Python `s[1:-1]` applied when `s.startswith('"') and s.endswith('"')`,
as in the `numeric_mks6p0bv` read path of `distribute_values`. -/
def stripOuterQuotes (s : String) : String :=
  match h : s.data with
  | [] => s
  | c :: _ =>
    if c = quoteChar && s.data.getLast (by simp [h]) = quoteChar then
      String.mk ((s.data.drop 1).dropLast)
    else s

/-- Python `s.strip('"')`: drop every leading and trailing double quote, as in
the `numeric_mktm79z5` (deduction) read path of `distribute_values`. -/
def pyStripQuotes (s : String) : String :=
  String.mk (((s.data.dropWhile (fun c => c = quoteChar)).reverse.dropWhile
    (fun c => c = quoteChar)).reverse)

/-- Read of the saved-amount column `numeric_mks6p0bv` inside the eligibility
scan: `value_str = col["value"] or "0"`, strip one layer of quotes, `float`,
and `0` on any parse failure. -/
def readSavedAmount (raw : Option String) : Rat :=
  (pyFloat? (stripOuterQuotes (pyOr raw "0"))).getD 0

/-- Read of the deduction column `numeric_mktm79z5` inside the consumption
loop: `raw_value = col["value"] or "0"`, `raw_value.strip('"')`, `float`,
and `0` on any parse failure. -/
def readDeduction (raw : Option String) : Rat :=
  (pyFloat? (pyStripQuotes (pyOr raw "0"))).getD 0

/-- Decoded view of a Monday column value string: only JSON objects are
modelled, with the two fields the service ever reads. -/
inductive JVal where
  | obj (label : Option String) (index : Option Int)
deriving DecidableEq, Repr

/-- One entry of a subitem's `column_values`: raw JSON-encoded string value,
its decoded view (`none` when `json.loads` would fail), and the display text. -/
structure Col where
  id : String
  raw : Option String
  json : Option JVal
  text : Option String
deriving DecidableEq, Repr

/-- A Monday subitem as the service reads it. -/
structure Subitem where
  id : String
  name : String
  column_values : List Col
deriving DecidableEq, Repr

/-- The currency status value `color_mks7xywc` as `distribute_values` decodes
it: empty/absent, a JSON object whose `index` key is consulted first, a JSON
object carrying only a `label`, some other successful JSON decoding, or plain
text on which `json.loads` raises. -/
inductive CurrencyRaw where
  | empty
  | jsonIndex (i : Int)
  | jsonLabel (l : String)
  | jsonOther
  | plain (s : String)
deriving DecidableEq, Repr

/-- The three-way classification of §4.1. -/
inductive Currency where
  | dollar
  | euro
  | invalid
deriving DecidableEq, Repr

/-- The keyword-containment rule of lines 350-366: uppercase the text, then
test each currency keyword for substring containment, dollar first. -/
def labelClassify (l : String) : Currency :=
  let u := pyUpper l
  if pyContains u "DÓLAR" || pyContains u "DOLLAR" || pyContains u "$" then
    Currency.dollar
  else if pyContains u "EURO" || pyContains u "€" then
    Currency.euro
  else
    Currency.invalid

/-- Currency classification of `distribute_values` lines 331-371: an integer
index in 0..4 is valid with 1 and 2 meaning dollar; a JSON label or a plain
text is classified by `labelClassify`; everything else is invalid. -/
def classify_currency : CurrencyRaw → Currency
  | CurrencyRaw.empty => Currency.invalid
  | CurrencyRaw.jsonIndex i =>
    if i = 0 ∨ i = 1 ∨ i = 2 ∨ i = 3 ∨ i = 4 then
      (if i = 1 ∨ i = 2 then Currency.dollar else Currency.euro)
    else Currency.invalid
  | CurrencyRaw.jsonLabel l => labelClassify l
  | CurrencyRaw.jsonOther => Currency.invalid
  | CurrencyRaw.plain s => labelClassify s

/-- The sentinel status label required for eligibility (line 383). -/
def sentinelStatus : String := "Parte Terrestre Internacional"

/-- One step of the status-column read in the eligibility scan (lines
392-406): when the raw value is non-empty, a decoded `label` wins, otherwise
the column's display text is used; an empty raw value leaves the running
`status_text` untouched. -/
def statusTextStep (c : Col) (cur : Option String) : Option String :=
  match c.raw with
  | none => cur
  | some s =>
    if s = "" then cur
    else
      match c.json with
      | some (JVal.obj (some l) _) => some l
      | some (JVal.obj none _) => c.text
      | none => c.text

/-- The per-subitem scan of `column_values` (lines 388-414): a fold that
tracks the latest status text and the latest parsed saved amount. -/
def scan_subitem (s : Subitem) : Option String × Rat :=
  s.column_values.foldl
    (fun acc c =>
      if c.id = "color_mks7xmpz" then (statusTextStep c acc.1, acc.2)
      else if c.id = "numeric_mks6p0bv" then (acc.1, readSavedAmount c.raw)
      else acc)
    (none, 0)

/-- Status text the eligibility scan extracts for a subitem. -/
def subitem_status_text (s : Subitem) : Option String := (scan_subitem s).1

/-- Saved amount (`numeric_mks6p0bv`) the eligibility scan extracts. -/
def subitem_saved_value (s : Subitem) : Rat := (scan_subitem s).2

/-- Eligibility test of line 417: sentinel status label and saved amount 0. -/
def is_eligible (s : Subitem) : Bool :=
  decide (subitem_status_text s = some sentinelStatus) &&
    decide (subitem_saved_value s = 0)

/-- The eligibility filter as written (lines 386-423): a fold appending each
qualifying subitem to the accumulator. -/
def eligible_subitems (subs : List Subitem) : List Subitem :=
  subs.foldl (fun acc s => if is_eligible s then acc ++ [s] else acc) []

/-- Deduction read of lines 451-461: the first `numeric_mktm79z5` column (the
scan breaks on the first match), parsed with quote stripping and 0 fallback;
0 when the column is absent. -/
def subitem_deduction_value (s : Subitem) : Rat :=
  match s.column_values.find? (fun c => c.id = "numeric_mktm79z5") with
  | some c => readDeduction c.raw
  | none => 0

/-- A logged Monday mutation attempt. -/
inductive ApiCall where
  | update (itemId colId : String) (value : Rat)
  | dup (itemId : String)
  | rename (itemId newName : String)
deriving DecidableEq, Repr

/-- Response oracles for the external Monday API: whether a
`change_column_value` acknowledges with an id, the id a `duplicate_item`
returns (`none` on failure), whether the name mutation acknowledges, and the
parent-by-name lookup used by the reserve write. -/
structure Env where
  updateAck : String → String → Rat → Bool
  dupResult : String → Option String
  renameAck : String → String → Bool
  parentLookup : String → Option String

/-- One entry of `processed_subitems`. -/
structure Entry where
  id : String
  name : String
  assigned_value : Rat
  deducted_value : Rat
deriving DecidableEq, Repr

/-- Mutable state of the consumption loop of `distribute_values`. -/
structure LoopState where
  remaining : Rat
  processed : List Entry
  splitsCreated : Nat
  calls : List ApiCall
deriving DecidableEq, Repr

/-- Initial loop state (lines 439-442). -/
def initState (limit : Rat) : LoopState :=
  { remaining := limit, processed := [], splitsCreated := 0, calls := [] }

/-- Append one logged API call to the state. -/
def addCall (st : LoopState) (c : ApiCall) : LoopState :=
  { st with calls := st.calls ++ [c] }

/-- The six-step split sequence of lines 475-568.  Every failure branch keeps
`remaining`, `processed` and `splitsCreated` unchanged and only logs the calls
made so far; success zeroes `remaining` and appends the two part entries.
The source sets `remaining_value = 0` before appending the Parte 1 entry, so
the entry records `deducted_value = 0` (line 535). -/
def splitAttempt (env : Env) (v : Rat) (st : LoopState) (s : Subitem) (d : Rat) :
    LoopState :=
  let c1 := st.calls ++ [ApiCall.update s.id "numeric_mktm79z5" st.remaining]
  if env.updateAck s.id "numeric_mktm79z5" st.remaining then
    let c2 := c1 ++ [ApiCall.update s.id "numeric_mks6p0bv" v]
    if env.updateAck s.id "numeric_mks6p0bv" v then
      match env.dupResult s.id with
      | none => { st with calls := c2 ++ [ApiCall.dup s.id] }
      | some part2 =>
        let c3 := c2 ++ [ApiCall.dup s.id,
          ApiCall.rename part2 (s.name ++ " - Parte 2")]
        let c4 := c3 ++ [ApiCall.update part2 "numeric_mktm79z5" (d - st.remaining)]
        if env.updateAck part2 "numeric_mktm79z5" (d - st.remaining) then
          let c5 := c4 ++ [ApiCall.update part2 "numeric_mks6p0bv" v]
          if env.updateAck part2 "numeric_mks6p0bv" v then
            let c6 := c5 ++ [ApiCall.rename s.id (s.name ++ " - Parte 1")]
            if env.renameAck s.id (s.name ++ " - Parte 1") then
              { remaining := 0,
                processed := st.processed ++
                  [ { id := s.id, name := s.name ++ " - Parte 1",
                      assigned_value := v, deducted_value := 0 },
                    { id := part2, name := s.name ++ " - Parte 2",
                      assigned_value := v, deducted_value := d - st.remaining } ],
                splitsCreated := st.splitsCreated + 1,
                calls := c6 }
            else { st with calls := c6 }
          else { st with calls := c5 }
        else { st with calls := c4 }
    else { st with calls := c2 }
  else { st with calls := c1 }

/-- Conjunction of the six acknowledgments the split sequence needs. -/
def split_acks (env : Env) (v rem : Rat) (s : Subitem) (d : Rat) : Bool :=
  env.updateAck s.id "numeric_mktm79z5" rem &&
  (env.updateAck s.id "numeric_mks6p0bv" v &&
    (match env.dupResult s.id with
     | none => false
     | some part2 =>
       env.updateAck part2 "numeric_mktm79z5" (d - rem) &&
         (env.updateAck part2 "numeric_mks6p0bv" v &&
           env.renameAck s.id (s.name ++ " - Parte 1"))))

/-- Line 468: `max_splits is not None and splits_created >= max_splits`. -/
def splitCapReached : Option Nat → Nat → Bool
  | none, _ => false
  | some m, k => m ≤ k

/-- The `processed_subitems` entry appended by the normal (no-split)
processing of one subitem (lines 579-584). -/
def entryOf (s : Subitem) (v : Rat) : Entry :=
  { id := s.id, name := s.name, assigned_value := v,
    deducted_value := subitem_deduction_value s }

/-- The state after the normal (no-split) processing of one subitem whose
update acknowledged (lines 574-585). -/
def normalState (st : LoopState) (s : Subitem) (v : Rat) : LoopState :=
  { remaining := st.remaining - subitem_deduction_value s,
    processed := st.processed ++ [entryOf s v],
    splitsCreated := st.splitsCreated,
    calls := st.calls ++ [ApiCall.update s.id "numeric_mks6p0bv" v] }

/-- The consumption loop of `distribute_values` (lines 444-595).  The split
branch never recurses: every branch of the split sequence ends in `break`. -/
def distLoop (env : Env) (v : Rat) (ms : Option Nat) :
    LoopState → List Subitem → LoopState
  | st, [] => st
  | st, s :: rest =>
    if st.remaining ≤ 0 then st
    else if 0 < subitem_deduction_value s then
      if st.remaining < subitem_deduction_value s then
        if splitCapReached ms st.splitsCreated then st
        else splitAttempt env v st s (subitem_deduction_value s)
      else
        if env.updateAck s.id "numeric_mks6p0bv" v then
          if (normalState st s v).remaining ≤ 0 then normalState st s v
          else distLoop env v ms (normalState st s v) rest
        else distLoop env v ms (addCall st (ApiCall.update s.id "numeric_mks6p0bv" v)) rest
    else distLoop env v ms st rest

/-- The Python value of `remaining_value > 0 and processed_subitems`: the
boolean `False` when the remainder is not positive, otherwise the processed
list itself (Python `and` returns its second operand). -/
inductive PyVal where
  | pybool (b : Bool)
  | pylist (l : List Entry)
deriving DecidableEq, Repr

/-- Python truthiness of a `PyVal`. -/
def PyVal.truthy : PyVal → Bool
  | PyVal.pybool b => b
  | PyVal.pylist l => !l.isEmpty

/-- The `reserva_saved` expression of lines 672 and 679. -/
def py_and_reserva (remaining : Rat) (processed : List Entry) : PyVal :=
  if 0 < remaining then PyVal.pylist processed else PyVal.pybool false

/-- Outcome constructors of `distribute_values`: the three early returns and
the distributed result of lines 675-680. -/
inductive DistResult where
  | invalid_currency
  | no_subitems
  | no_eligible
  | distributed (processed : List Entry) (remaining : Rat) (reserva_saved : PyVal)
deriving DecidableEq, Repr

/-- HTTP status code attached to each outcome in the source. -/
def DistResult.status_code : DistResult → Nat
  | DistResult.invalid_currency => 400
  | DistResult.no_subitems => 200
  | DistResult.no_eligible => 200
  | DistResult.distributed _ _ _ => 200

/-- Whether the returned payload is the error dict (only the invalid-currency
return carries an "error" key; the distributed return always carries the
message "Values distributed successfully"). -/
def DistResult.is_error : DistResult → Bool
  | DistResult.invalid_currency => true
  | _ => false

/-- The `operation_state` entry written at lines 668-673. -/
structure LedgerEntry where
  processed_subitems : List Entry
  remaining_value : Rat
  reserva_saved : PyVal
deriving DecidableEq, Repr

/-- Everything a `distribute_values` call produces: the returned payload, the
`operation_state` write (keyed by the parent item id, `none` when the call
returns before reaching the loop), and the logged Monday mutations. -/
structure DistOutput where
  result : DistResult
  ledger : Option (String × LedgerEntry)
  calls : List ApiCall
deriving DecidableEq, Repr

/-- Input record of `distribute_values` after the extraction of lines
318-323, with the source column ids as field names. -/
structure ItemData where
  id : String
  name : String
  numeric_mks61nvq : Rat
  numeric_mksxcdva : Rat
  color_mks7xywc : CurrencyRaw
deriving DecidableEq, Repr

/-- The RESERVA write-back of lines 597-665: when a parent with the same name
is found, two column updates (remainder and the value to save); the
acknowledgments are only logged and do not change the outcome. -/
def reserve_write_calls (env : Env) (parentName : String) (remaining v : Rat) :
    List ApiCall :=
  match env.parentLookup parentName with
  | some pid =>
    [ApiCall.update pid "numeric_mktzwbep" remaining,
     ApiCall.update pid "numeric_mktzrf7x" v]
  | none => []

/-- The whole of `distribute_values` (lines 311-680) over the decoded inputs:
currency gate, subitem fetch result, eligibility filter, consumption loop,
reserve write-back, `operation_state` write and returned payload. -/
def distribute_values (item : ItemData) (subitems : List Subitem)
    (max_splits : Option Nat) (env : Env) : DistOutput :=
  if classify_currency item.color_mks7xywc = Currency.invalid then
    { result := DistResult.invalid_currency, ledger := none, calls := [] }
  else if subitems.isEmpty then
    { result := DistResult.no_subitems, ledger := none, calls := [] }
  else if (eligible_subitems subitems).isEmpty then
    { result := DistResult.no_eligible, ledger := none, calls := [] }
  else
    let stF := distLoop env item.numeric_mksxcdva max_splits
      (initState item.numeric_mks61nvq) (eligible_subitems subitems)
    let extra :=
      if 0 < stF.remaining ∧ stF.processed ≠ [] then
        reserve_write_calls env item.name stF.remaining item.numeric_mksxcdva
      else []
    { result := DistResult.distributed stF.processed stF.remaining
        (py_and_reserva stF.remaining stF.processed),
      ledger := some (item.id,
        { processed_subitems := stF.processed,
          remaining_value := stF.remaining,
          reserva_saved := py_and_reserva stF.remaining stF.processed }),
      calls := stF.calls ++ extra }

/-- Outcome of the `/atualizarreservadecambio` handler after a positive
reserve was found on the parent (lines 1460-1576). -/
inductive ReservaResult where
  | no_status
  | no_reserva
  | ran (dist : DistOutput) (cleared : Bool)
deriving DecidableEq, Repr

/-- Line 1527: `result.get("remaining_value", 0)` on the returned dict — the
key only exists on the distributed payload, every other payload reads 0. -/
def result_remaining_value : DistResult → Rat
  | DistResult.distributed _ r _ => r
  | _ => 0

/-- Lines 1526-1529: clear the reserve columns unless the returned dict
reports a positive `remaining_value`. -/
def should_clear_reserva (res : DistResult) : Bool :=
  !(decide (0 < result_remaining_value res))

/-- Core of `atualizar_reserva_de_cambio` once a positive reserve was read off
the parent (lines 1460-1576): guard on a non-empty currency status and a
positive reserve, rerun `distribute_values` with the reserve as the limit and
the quote as the value to save (capped at one split), then decide whether the
parent's reserve columns are cleared. -/
def atualizar_reserva_de_cambio (parentId parentName : String)
    (reserva cotacao : Rat) (currency : CurrencyRaw) (subs : List Subitem)
    (env : Env) : ReservaResult :=
  if currency = CurrencyRaw.empty then ReservaResult.no_status
  else if reserva ≤ 0 then ReservaResult.no_reserva
  else
    let out := distribute_values
      { id := parentId, name := parentName, numeric_mks61nvq := reserva,
        numeric_mksxcdva := cotacao, color_mks7xywc := currency }
      subs (some 1) env
    ReservaResult.ran out (should_clear_reserva out.result)

/-- A status column carrying the sentinel label, as fetched from Monday. -/
def colStatusOK : Col :=
  { id := "color_mks7xmpz", raw := some "j",
    json := some (JVal.obj (some sentinelStatus) none), text := some sentinelStatus }

/-- A deduction column `numeric_mktm79z5` holding the given numeric string. -/
def colDeduct (n : String) : Col :=
  { id := "numeric_mktm79z5", raw := some n, json := none, text := some n }

/-- Subitem fixture: eligible (sentinel status, saved amount absent hence 0)
with the given deduction string. -/
def mkSub (i nm n : String) : Subitem :=
  { id := i, name := nm, column_values := [colStatusOK, colDeduct n] }

/-- Environment where every Monday call succeeds; duplication returns the
original id suffixed with "d". -/
def envOK : Env :=
  { updateAck := fun _ _ _ => true, dupResult := fun i => some (i ++ "d"),
    renameAck := fun _ _ => true, parentLookup := fun _ => some "par9" }

/-- Parent fixture for Scenario A: limit 100, value to save 7, dollar. -/
def itemA : ItemData :=
  { id := "p1", name := "Viagem", numeric_mks61nvq := 100,
    numeric_mksxcdva := 7, color_mks7xywc := CurrencyRaw.jsonIndex 1 }

/-- Scenario A subitems: eligible deductions 40, 30, 50. -/
def subsA : List Subitem :=
  [mkSub "s1" "Item A" "40", mkSub "s2" "Item B" "30", mkSub "s3" "Item C" "50"]

/-- Environment where the six split steps reach step 6 and the final rename
of the original item fails to acknowledge. -/
def envFail : Env :=
  { updateAck := fun _ _ _ => true, dupResult := fun i => some (i ++ "d"),
    renameAck := fun _ _ => false, parentLookup := fun _ => some "par9" }

/-- Parent fixture for Scenario C: limit 20, value to save 7, euro index. -/
def itemC : ItemData :=
  { id := "p3", name := "Viagem", numeric_mks61nvq := 20,
    numeric_mksxcdva := 7, color_mks7xywc := CurrencyRaw.jsonIndex 3 }

/-- Parent fixture with an unclassifiable plain-text currency status. -/
def itemInvalid : ItemData :=
  { id := "p4", name := "Viagem", numeric_mks61nvq := 100,
    numeric_mksxcdva := 7, color_mks7xywc := CurrencyRaw.plain "N/A" }

/-- A subitem whose status label is not the sentinel: never eligible. -/
def subOther : Subitem :=
  { id := "x1", name := "X",
    column_values :=
      [ { id := "color_mks7xmpz", raw := some "j",
          json := some (JVal.obj (some "Aéreo") none), text := some "Aéreo" },
        colDeduct "50" ] }

/-- An eligible subitem whose deduction column parses to 0. -/
def subZero : Subitem := mkSub "z1" "Zed" "0"

/-- Sum of the `deducted_value` fields of a list of processed entries. -/
def entries_sum (es : List Entry) : Rat :=
  (es.map (fun e => e.deducted_value)).sum

/-- Each entry's deduction fits the budget remaining at the moment it was
consumed: the running remainder starts at `r` and shrinks by each entry. -/
def stepBounded : Rat → List Entry → Prop
  | _, [] => True
  | r, e :: es => e.deducted_value ≤ r ∧ stepBounded (r - e.deducted_value) es

instance instDecidableStepBounded :
    (r : Rat) → (es : List Entry) → Decidable (stepBounded r es)
  | _, [] => isTrue trivial
  | r, e :: tl =>
    have : Decidable (stepBounded (r - e.deducted_value) tl) :=
      instDecidableStepBounded (r - e.deducted_value) tl
    inferInstanceAs (Decidable (_ ∧ _))

/-- The processed list a returned payload carries (empty for the early
returns, which have no `processed_subitems` key). -/
def DistResult.processed_list : DistResult → List Entry
  | DistResult.distributed p _ _ => p
  | _ => []

/-- Dollar keywords of the classification (line 351/361). -/
def dollarKeywords : List String := ["DÓLAR", "DOLLAR", "$"]

/-- Euro keywords of the classification (line 354/364). -/
def euroKeywords : List String := ["EURO", "€"]

/-- Classification rule exactly as the claim words it: a label or plain text
is matched case-insensitively AGAINST the keyword sets, i.e. the uppercased
text must equal one of the keywords. -/
def labelExact (l : String) : Currency :=
  if pyUpper l = "DÓLAR" ∨ pyUpper l = "DOLLAR" ∨ pyUpper l = "$" then
    Currency.dollar
  else if pyUpper l = "EURO" ∨ pyUpper l = "€" then Currency.euro
  else Currency.invalid

/-- The claim's classification function: index rule as in the code, but
labels and plain text classified by exact (set membership) matching. -/
def classify_currency_claim : CurrencyRaw → Currency
  | CurrencyRaw.empty => Currency.invalid
  | CurrencyRaw.jsonIndex i =>
    if i = 0 ∨ i = 1 ∨ i = 2 ∨ i = 3 ∨ i = 4 then
      (if i = 1 ∨ i = 2 then Currency.dollar else Currency.euro)
    else Currency.invalid
  | CurrencyRaw.jsonLabel l => labelExact l
  | CurrencyRaw.jsonOther => Currency.invalid
  | CurrencyRaw.plain s => labelExact s

/-- The amended classification rule: indices as claimed; a label or plain
text is dollar when the uppercased text CONTAINS a dollar keyword, else euro
when it contains a euro keyword, else invalid; all else invalid. -/
def classify_currency_amended : CurrencyRaw → Currency
  | CurrencyRaw.jsonIndex i =>
    if i ∈ ([0, 1, 2, 3, 4] : List Int) then
      (if i ∈ ([1, 2] : List Int) then Currency.dollar else Currency.euro)
    else Currency.invalid
  | CurrencyRaw.jsonLabel l =>
    if dollarKeywords.any (fun k => pyContains (pyUpper l) k) then Currency.dollar
    else if euroKeywords.any (fun k => pyContains (pyUpper l) k) then Currency.euro
    else Currency.invalid
  | CurrencyRaw.plain s =>
    if dollarKeywords.any (fun k => pyContains (pyUpper s) k) then Currency.dollar
    else if euroKeywords.any (fun k => pyContains (pyUpper s) k) then Currency.euro
    else Currency.invalid
  | CurrencyRaw.empty => Currency.invalid
  | CurrencyRaw.jsonOther => Currency.invalid

/-- The over-budget subitem of Scenario A (deduction 50). -/
def sub50 : Subitem := mkSub "s3" "Item C" "50"

/-- A later eligible subitem, used to observe that it stays untouched. -/
def sub10 : Subitem := mkSub "s4" "Item D" "10"

/-- Processed entry for Scenario A's first item. -/
def entA1 : Entry :=
  { id := "s1", name := "Item A", assigned_value := 7, deducted_value := 40 }

/-- Processed entry for Scenario A's second item. -/
def entA2 : Entry :=
  { id := "s2", name := "Item B", assigned_value := 7, deducted_value := 30 }

/-- The four processed entries Scenario A actually produces, Parte 1
recording `deducted_value` 0. -/
def processedA : List Entry :=
  [ entA1, entA2,
    { id := "s3", name := "Item C - Parte 1", assigned_value := 7,
      deducted_value := 0 },
    { id := "s3d", name := "Item C - Parte 2", assigned_value := 7,
      deducted_value := 20 } ]

/-- Two eligible subitems (deductions 40 and 30) consumed without a split
under limit 100. -/
def subsNoSplit : List Subitem :=
  [mkSub "s1" "Item A" "40", mkSub "s2" "Item B" "30"]

/-- Scenario C subitem: one eligible deduction 10. -/
def subC : Subitem := mkSub "t1" "Ida" "10"

/-- The single processed entry of Scenario C. -/
def entC : Entry :=
  { id := "t1", name := "Ida", assigned_value := 7, deducted_value := 10 }

/-- A failed split sequence changes nothing but the call log. -/
theorem splitAttempt_of_acks_false (env : Env) (v : Rat) (st : LoopState)
    (s : Subitem) (d : Rat)
    (h : split_acks env v st.remaining s d = false) :
    (splitAttempt env v st s d).remaining = st.remaining ∧
    (splitAttempt env v st s d).processed = st.processed ∧
    (splitAttempt env v st s d).splitsCreated = st.splitsCreated := by
  unfold splitAttempt
  unfold split_acks at h
  cases h1 : env.updateAck s.id "numeric_mktm79z5" st.remaining
  · simp [h1]
  · cases h2 : env.updateAck s.id "numeric_mks6p0bv" v
    · simp [h1, h2]
    · cases h3 : env.dupResult s.id with
      | none => simp [h1, h2, h3]
      | some part2 =>
        cases h4 : env.updateAck part2 "numeric_mktm79z5" (d - st.remaining)
        · simp [h1, h2, h3, h4]
        · cases h5 : env.updateAck part2 "numeric_mks6p0bv" v
          · simp [h1, h2, h3, h4, h5]
          · cases h6 : env.renameAck s.id (s.name ++ " - Parte 1")
            · simp [h1, h2, h3, h4, h5, h6]
            · simp [h1, h2, h3, h4, h5, h6] at h

/-- A fully acknowledged split sequence zeroes the remainder, counts one
split, and appends the two part entries (Parte 1 recording deduction 0). -/
theorem splitAttempt_of_acks_true (env : Env) (v : Rat) (st : LoopState)
    (s : Subitem) (d : Rat)
    (h : split_acks env v st.remaining s d = true) :
    (splitAttempt env v st s d).remaining = 0 ∧
    (splitAttempt env v st s d).splitsCreated = st.splitsCreated + 1 ∧
    ∃ part2, env.dupResult s.id = some part2 ∧
      (splitAttempt env v st s d).processed = st.processed ++
        [ { id := s.id, name := s.name ++ " - Parte 1",
            assigned_value := v, deducted_value := 0 },
          { id := part2, name := s.name ++ " - Parte 2",
            assigned_value := v, deducted_value := d - st.remaining } ] := by
  unfold splitAttempt
  unfold split_acks at h
  cases h1 : env.updateAck s.id "numeric_mktm79z5" st.remaining
  · simp [h1] at h
  · cases h2 : env.updateAck s.id "numeric_mks6p0bv" v
    · simp [h1, h2] at h
    · cases h3 : env.dupResult s.id with
      | none => simp [h1, h2, h3] at h
      | some part2 =>
        cases h4 : env.updateAck part2 "numeric_mktm79z5" (d - st.remaining)
        · simp [h1, h2, h3, h4] at h
        · cases h5 : env.updateAck part2 "numeric_mks6p0bv" v
          · simp [h1, h2, h3, h4, h5] at h
          · cases h6 : env.renameAck s.id (s.name ++ " - Parte 1")
            · simp [h1, h2, h3, h4, h5, h6] at h
            · refine ⟨?_, ?_, part2, rfl, ?_⟩ <;> simp [h1, h2, h3, h4, h5, h6]

/-- A loop started with a non-positive remainder does nothing. -/
theorem distLoop_stop (env : Env) (v : Rat) (ms : Option Nat) (st : LoopState)
    (l : List Subitem) (h : st.remaining ≤ 0) :
    distLoop env v ms st l = st := by
  cases l with
  | nil => rfl
  | cons s rest => simp [distLoop, h]

/-- The appending fold of the eligibility scan is a stable filter. -/
theorem eligible_subitems_eq_filter (subs : List Subitem) :
    eligible_subitems subs = subs.filter is_eligible := by
  suffices h : ∀ (l : List Subitem) (acc : List Subitem),
      l.foldl (fun a s => if is_eligible s then a ++ [s] else a) acc =
        acc ++ l.filter is_eligible by
    simpa [eligible_subitems] using h subs []
  intro l
  induction l with
  | nil => intro acc; simp
  | cons s tl ih =>
    intro acc
    by_cases h : is_eligible s = true <;>
      simp [List.filter_cons, h, ih, List.append_assoc]

/-- The remainder never grows across the consumption loop. -/
theorem distLoop_remaining_le (env : Env) (v : Rat) (ms : Option Nat) :
    ∀ (l : List Subitem) (st : LoopState),
      (distLoop env v ms st l).remaining ≤ st.remaining := by
  intro l
  induction l with
  | nil => intro st; exact le_refl _
  | cons s rest ih =>
    intro st
    by_cases hle : st.remaining ≤ 0
    · simp [distLoop, hle]
    · by_cases hd : 0 < subitem_deduction_value s
      · by_cases hgt : st.remaining < subitem_deduction_value s
        · by_cases hcap : splitCapReached ms st.splitsCreated = true
          · simp [distLoop, hle, hd, hgt, hcap]
          · simp only [distLoop, if_neg hle, if_pos hd, if_pos hgt,
              if_neg hcap]
            cases hacks : split_acks env v st.remaining s
                (subitem_deduction_value s)
            · exact le_of_eq (splitAttempt_of_acks_false env v st s _ hacks).1
            · have h0 := (splitAttempt_of_acks_true env v st s _ hacks).1
              rw [h0]
              exact le_of_lt (lt_of_not_le hle)
        · by_cases hack : env.updateAck s.id "numeric_mks6p0bv" v = true
          · have hsub : (normalState st s v).remaining ≤ st.remaining := by
              simp only [normalState]
              exact sub_le_self _ (le_of_lt hd)
            by_cases hstop : (normalState st s v).remaining ≤ 0
            · simp [distLoop, hle, hd, hgt, hack, hstop, hsub]
            · simp only [distLoop, if_neg hle, if_pos hd, if_neg hgt,
                if_pos hack, if_neg hstop]
              exact le_trans (ih (normalState st s v)) hsub
          · simp only [distLoop, if_neg hle, if_pos hd, if_neg hgt,
              if_neg hack]
            exact ih (addCall st (ApiCall.update s.id "numeric_mks6p0bv" v))
      · simp only [distLoop, if_neg hle, if_neg hd]
        exact ih st

/-- A loop run that creates no split only appends entries, subtracts exactly
their recorded deductions from the remainder, and consumes each entry within
the budget remaining at its turn. -/
theorem distLoop_no_split_extend (env : Env) (v : Rat) (ms : Option Nat) :
    ∀ (l : List Subitem) (st : LoopState),
      (distLoop env v ms st l).splitsCreated = st.splitsCreated →
      ∃ new : List Entry,
        (distLoop env v ms st l).processed = st.processed ++ new ∧
        (distLoop env v ms st l).remaining = st.remaining - entries_sum new ∧
        stepBounded st.remaining new := by
  intro l
  induction l with
  | nil => intro st _; exact ⟨[], by simp [distLoop, entries_sum, stepBounded]⟩
  | cons s rest ih =>
    intro st hsplits
    by_cases hle : st.remaining ≤ 0
    · refine ⟨[], ?_⟩
      simp [distLoop, hle, entries_sum, stepBounded]
    · by_cases hd : 0 < subitem_deduction_value s
      · by_cases hgt : st.remaining < subitem_deduction_value s
        · by_cases hcap : splitCapReached ms st.splitsCreated = true
          · refine ⟨[], ?_⟩
            simp [distLoop, hle, hd, hgt, hcap, entries_sum, stepBounded]
          · simp only [distLoop, if_neg hle, if_pos hd, if_pos hgt,
              if_neg hcap] at hsplits ⊢
            cases hacks : split_acks env v st.remaining s
                (subitem_deduction_value s)
            · obtain ⟨hr, hp, _⟩ :=
                splitAttempt_of_acks_false env v st s _ hacks
              exact ⟨[], by simp [hp, hr, entries_sum, stepBounded]⟩
            · have hk := (splitAttempt_of_acks_true env v st s _ hacks).2.1
              rw [hk] at hsplits
              exact absurd hsplits (by simp)
        · by_cases hack : env.updateAck s.id "numeric_mks6p0bv" v = true
          · have hdle : subitem_deduction_value s ≤ st.remaining :=
              le_of_not_lt hgt
            by_cases hstop : (normalState st s v).remaining ≤ 0
            · have hstop2 : st.remaining ≤ subitem_deduction_value s := by
                simpa [normalState, sub_nonpos] using hstop
              refine ⟨[entryOf s v], ?_⟩
              simp [distLoop, hle, hd, hgt, hack, hstop, hstop2, normalState,
                entryOf, entries_sum, stepBounded, hdle]
            · simp only [distLoop, if_neg hle, if_pos hd, if_neg hgt,
                if_pos hack, if_neg hstop] at hsplits ⊢
              have hsp2 : (distLoop env v ms (normalState st s v) rest).splitsCreated
                  = (normalState st s v).splitsCreated := by
                simpa [normalState] using hsplits
              obtain ⟨new, hp, hr, hb⟩ := ih (normalState st s v) hsp2
              refine ⟨entryOf s v :: new, ?_, ?_, ?_⟩
              · simpa [normalState, List.append_assoc] using hp
              · rw [hr]
                simp only [normalState, entryOf, entries_sum, List.map_cons,
                  List.sum_cons]
                ring
              · refine ⟨by simpa [entryOf] using hdle, ?_⟩
                simpa [normalState, entryOf, entries_sum] using hb
          · simp only [distLoop, if_neg hle, if_pos hd, if_neg hgt,
              if_neg hack] at hsplits ⊢
            have hsp2 : (distLoop env v ms
                (addCall st (ApiCall.update s.id "numeric_mks6p0bv" v)) rest).splitsCreated
                = (addCall st (ApiCall.update s.id "numeric_mks6p0bv" v)).splitsCreated := by
              simpa [addCall] using hsplits
            obtain ⟨new, hp, hr, hb⟩ := ih _ hsp2
            exact ⟨new, by simpa [addCall] using hp,
              by simpa [addCall] using hr, by simpa [addCall] using hb⟩
      · simp only [distLoop, if_neg hle, if_neg hd] at hsplits ⊢
        exact ih st hsplits

/-- C1: on Scenario A (limit 100, eligible deductions 40, 30, 50, value to
save 7, every external call acknowledged) the split of the third item appends
the Parte 1 entry AFTER `remaining_value` has been zeroed, so Parte 1 records
`deducted_value` 0 instead of the remaining budget 30: the two recorded part
deductions sum to 20, not to the original deduction 50, contradicting the
claimed split conservation (the actual column write of step 1 did set the
original item's deduction to 30, and the source comment on line 535 says the
entry was meant to record that pre-zero value). -/
theorem part1_deducted_value_recorded_zero :
    (distribute_values itemA subsA none envOK).result =
      DistResult.distributed processedA 0 (PyVal.pybool false) ∧
    entries_sum ((distribute_values itemA subsA none envOK).result.processed_list.drop 2) = 20 ∧
    subitem_deduction_value sub50 = 50 ∧
    ¬ entries_sum ((distribute_values itemA subsA none envOK).result.processed_list.drop 2)
        = subitem_deduction_value sub50 := by
  refine ⟨?_, ?_, ?_, ?_⟩ <;> with_unfolding_all decide

/-- C2: when an in-budget-exhausting item triggers a split that fully
acknowledges, the consumption loop returns the split state immediately: the
result does not depend on the remaining eligible items, the remainder is 0,
and exactly one more split is counted — for every max-splits parameter that
still permits a split, including caps greater than one and the unlimited
`none`. -/
theorem at_most_one_split_loop_stops (env : Env) (v : Rat) (ms : Option Nat)
    (st : LoopState) (s : Subitem) (rest : List Subitem)
    (hrem : 0 < st.remaining)
    (hgt : st.remaining < subitem_deduction_value s)
    (hcap : splitCapReached ms st.splitsCreated = false)
    (hacks : split_acks env v st.remaining s (subitem_deduction_value s) = true) :
    distLoop env v ms st (s :: rest) =
      splitAttempt env v st s (subitem_deduction_value s) ∧
    (distLoop env v ms st (s :: rest)).remaining = 0 ∧
    (distLoop env v ms st (s :: rest)).splitsCreated = st.splitsCreated + 1 := by
  have hle : ¬ st.remaining ≤ 0 := not_le.2 hrem
  have hd : 0 < subitem_deduction_value s := lt_trans hrem hgt
  have heq : distLoop env v ms st (s :: rest) =
      splitAttempt env v st s (subitem_deduction_value s) := by
    simp [distLoop, hle, hd, hgt, hcap]
  refine ⟨heq, ?_, ?_⟩ <;> rw [heq]
  · exact (splitAttempt_of_acks_true env v st s _ hacks).1
  · exact (splitAttempt_of_acks_true env v st s _ hacks).2.1

/-- Witness for C2: a successful split at remaining 30 against deduction 50
under a max-splits cap of 5 ends the loop without touching the later item. -/
theorem at_most_one_split_loop_stops_witness :
    (0 : Rat) < (initState 30).remaining ∧
    (initState 30).remaining < subitem_deduction_value sub50 ∧
    splitCapReached (some 5) (initState 30).splitsCreated = false ∧
    split_acks envOK 7 (initState 30).remaining sub50
      (subitem_deduction_value sub50) = true ∧
    distLoop envOK 7 (some 5) (initState 30) [sub50, sub10] =
      splitAttempt envOK 7 (initState 30) sub50 (subitem_deduction_value sub50) := by
  refine ⟨by with_unfolding_all decide, by with_unfolding_all decide,
    by with_unfolding_all decide, by with_unfolding_all decide, ?_⟩
  exact (at_most_one_split_loop_stops envOK 7 (some 5) (initState 30) sub50
    [sub10] (by with_unfolding_all decide) (by with_unfolding_all decide)
    (by with_unfolding_all decide) (by with_unfolding_all decide)).1

/-- C3 counterexample: on Scenario A with every update acknowledged but the
final rename failing, the split sequence fails (its acknowledgment
conjunction is false), yet the call returns the ordinary success payload —
processed entries kept, remainder preserved at 30, no error, HTTP 200 —
contradicting the claim that an error is surfaced to the caller. -/
theorem split_failure_reports_success :
    split_acks envFail 7 30 sub50 50 = false ∧
    (distribute_values itemA subsA none envFail).result =
      DistResult.distributed [entA1, entA2] 30 (PyVal.pylist [entA1, entA2]) ∧
    (distribute_values itemA subsA none envFail).result.is_error = false ∧
    (distribute_values itemA subsA none envFail).result.status_code = 200 := by
  refine ⟨?_, ?_, ?_, ?_⟩ <;> with_unfolding_all decide

/-- C3 (amended): if any of the six split steps fails to acknowledge, the
loop aborts entirely (later eligible items are untouched), the processed
list and the remainder are exactly what they were before the attempted
split — but the call reports the normal success payload (HTTP 200, not an
error) on every path that reaches the distribution loop. -/
theorem split_failure_aborts_and_preserves (env : Env) (v : Rat)
    (ms : Option Nat) (st : LoopState) (s : Subitem) (rest : List Subitem)
    (hrem : 0 < st.remaining)
    (hgt : st.remaining < subitem_deduction_value s)
    (hcap : splitCapReached ms st.splitsCreated = false)
    (hacks : split_acks env v st.remaining s (subitem_deduction_value s) = false) :
    distLoop env v ms st (s :: rest) =
      splitAttempt env v st s (subitem_deduction_value s) ∧
    (distLoop env v ms st (s :: rest)).processed = st.processed ∧
    (distLoop env v ms st (s :: rest)).remaining = st.remaining ∧
    (∀ (item : ItemData) (subs : List Subitem),
      classify_currency item.color_mks7xywc ≠ Currency.invalid →
      subs.isEmpty = false →
      (eligible_subitems subs).isEmpty = false →
      (distribute_values item subs ms env).result.is_error = false ∧
      (distribute_values item subs ms env).result.status_code = 200) := by
  have hle : ¬ st.remaining ≤ 0 := not_le.2 hrem
  have hd : 0 < subitem_deduction_value s := lt_trans hrem hgt
  have heq : distLoop env v ms st (s :: rest) =
      splitAttempt env v st s (subitem_deduction_value s) := by
    simp [distLoop, hle, hd, hgt, hcap]
  obtain ⟨hr, hp, _⟩ := splitAttempt_of_acks_false env v st s
    (subitem_deduction_value s) hacks
  refine ⟨heq, by rw [heq]; exact hp, by rw [heq]; exact hr, ?_⟩
  intro item subs hc hs hel
  simp [distribute_values, hc, hs, hel,
    DistResult.is_error, DistResult.status_code]

/-- Witness for the amended C3: renaming fails at step 6, the loop preserves
the empty processed list and the remainder 30, and the Scenario A call with
the failing environment reports 200 with no error. -/
theorem split_failure_aborts_and_preserves_witness :
    (0 : Rat) < (initState 30).remaining ∧
    (initState 30).remaining < subitem_deduction_value sub50 ∧
    splitCapReached none (initState 30).splitsCreated = false ∧
    split_acks envFail 7 (initState 30).remaining sub50
      (subitem_deduction_value sub50) = false ∧
    (distLoop envFail 7 none (initState 30) [sub50, sub10]).processed =
      (initState 30).processed ∧
    (distLoop envFail 7 none (initState 30) [sub50, sub10]).remaining =
      (initState 30).remaining ∧
    (distribute_values itemA subsA none envFail).result.is_error = false ∧
    (distribute_values itemA subsA none envFail).result.status_code = 200 := by
  have h := split_failure_aborts_and_preserves envFail 7 none (initState 30)
    sub50 [sub10] (by with_unfolding_all decide) (by with_unfolding_all decide)
    (by with_unfolding_all decide) (by with_unfolding_all decide)
  have h4 := h.2.2.2 itemA subsA (by with_unfolding_all decide)
    (by with_unfolding_all decide) (by with_unfolding_all decide)
  exact ⟨by with_unfolding_all decide, by with_unfolding_all decide,
    by with_unfolding_all decide, by with_unfolding_all decide,
    h.2.1, h.2.2.1, h4.1, h4.2⟩

/-- C4: a loop run from the initial state that performs no split ends with
remainder equal to the limit minus the sum of the recorded deductions, and
each processed entry's deduction fits the budget remaining at the moment it
was consumed. -/
theorem no_split_conservation (env : Env) (v : Rat) (ms : Option Nat)
    (L : Rat) (l : List Subitem)
    (h : (distLoop env v ms (initState L) l).splitsCreated = 0) :
    (distLoop env v ms (initState L) l).remaining =
      L - entries_sum (distLoop env v ms (initState L) l).processed ∧
    stepBounded L (distLoop env v ms (initState L) l).processed := by
  obtain ⟨new, hp, hr, hb⟩ := distLoop_no_split_extend env v ms l (initState L)
    (by simpa [initState] using h)
  have hp2 : (distLoop env v ms (initState L) l).processed = new := by
    simpa [initState] using hp
  have hr2 : (distLoop env v ms (initState L) l).remaining =
      L - entries_sum new := by simpa [initState] using hr
  have hb2 : stepBounded L new := by simpa [initState] using hb
  rw [hp2, hr2]
  exact ⟨rfl, hb2⟩

/-- Witness for C4: limit 100 consumed by deductions 40 and 30 with no split
leaves remainder 100 minus the recorded sum, each within budget. -/
theorem no_split_conservation_witness :
    (distLoop envOK 7 none (initState 100) subsNoSplit).splitsCreated = 0 ∧
    ((distLoop envOK 7 none (initState 100) subsNoSplit).remaining =
      100 - entries_sum (distLoop envOK 7 none (initState 100) subsNoSplit).processed ∧
    stepBounded 100 (distLoop envOK 7 none (initState 100) subsNoSplit).processed) :=
  ⟨by with_unfolding_all decide,
   no_split_conservation envOK 7 none 100 subsNoSplit (by with_unfolding_all decide)⟩

/-- Truthiness and shape of the Python value `remaining > 0 and processed`. -/
theorem py_and_reserva_spec (r : Rat) (p : List Entry) :
    ((py_and_reserva r p).truthy = true ↔ 0 < r ∧ p ≠ []) ∧
    (0 < r → py_and_reserva r p = PyVal.pylist p) ∧
    (¬ 0 < r → py_and_reserva r p = PyVal.pybool false) := by
  unfold py_and_reserva
  by_cases h0 : 0 < r <;> simp [h0, PyVal.truthy]

/-- C5 counterexample: on Scenario C (limit 20, one eligible deduction 10,
all calls acknowledged) the call ends with remainder 10 and one processed
entry, so the claim demands the boolean true; the `reserva_saved` field is
instead the processed list itself (Python `and` returns its second operand),
which is not a boolean at all. -/
theorem reserva_saved_not_boolean :
    (distribute_values itemC [subC] none envOK).result =
      DistResult.distributed [entC] 10 (PyVal.pylist [entC]) ∧
    (∀ b : Bool, PyVal.pylist [entC] ≠ PyVal.pybool b) := by
  refine ⟨by with_unfolding_all decide, ?_⟩
  intro b
  cases b <;> simp

/-- C5 (amended): for every call that reaches the distribution loop, the
returned `reserva_saved` value is `remaining > 0 and processed` under Python
semantics: truthy exactly when the remainder is positive and the processed
list is non-empty, concretely the processed list itself when the remainder
is positive and the boolean false otherwise; the ledger entry records the
same value. -/
theorem reserva_saved_truthy_iff (item : ItemData) (subs : List Subitem)
    (ms : Option Nat) (env : Env) (p : List Entry) (r : Rat) (rs : PyVal)
    (h : (distribute_values item subs ms env).result =
      DistResult.distributed p r rs) :
    rs = py_and_reserva r p ∧
    (rs.truthy = true ↔ 0 < r ∧ p ≠ []) ∧
    (0 < r → rs = PyVal.pylist p) ∧
    (¬ 0 < r → rs = PyVal.pybool false) ∧
    (distribute_values item subs ms env).ledger =
      some (item.id,
        { processed_subitems := p, remaining_value := r,
          reserva_saved := rs }) := by
  unfold distribute_values at h
  split_ifs at h with h1 h2 h3
  simp only [DistResult.distributed.injEq] at h
  obtain ⟨hp, hr, hs⟩ := h
  subst hp
  subst hr
  subst hs
  obtain ⟨w1, w2, w3⟩ := py_and_reserva_spec
    (distLoop env item.numeric_mksxcdva ms (initState item.numeric_mks61nvq)
      (eligible_subitems subs)).remaining
    (distLoop env item.numeric_mksxcdva ms (initState item.numeric_mks61nvq)
      (eligible_subitems subs)).processed
  refine ⟨rfl, w1, w2, w3, ?_⟩
  simp [distribute_values, h1, h2, h3]

/-- Witness for the amended C5: Scenario C yields a positive remainder and a
non-empty processed list, so `reserva_saved` is the processed list. -/
theorem reserva_saved_truthy_iff_witness :
    (distribute_values itemC [subC] none envOK).result =
      DistResult.distributed [entC] 10 (PyVal.pylist [entC]) ∧
    ((PyVal.pylist [entC] : PyVal).truthy = true ↔
      (0 : Rat) < 10 ∧ [entC] ≠ []) ∧
    (distribute_values itemC [subC] none envOK).ledger =
      some (itemC.id,
        { processed_subitems := [entC], remaining_value := 10,
          reserva_saved := PyVal.pylist [entC] }) := by
  have h := reserva_saved_truthy_iff itemC [subC] none envOK [entC] 10
    (PyVal.pylist [entC]) (by with_unfolding_all decide)
  exact ⟨by with_unfolding_all decide, h.2.1, h.2.2.2.2⟩

/-- C6 counterexample: the code classifies a label or plain text by
substring containment, not by case-insensitive equality against the keyword
sets: "US DOLLARS" equals none of the claimed dollar keywords even after
uppercasing (the claim-literal classifier rejects it), yet the code
classifies it as dollar because it contains "DOLLAR". -/
theorem currency_match_is_substring :
    classify_currency (CurrencyRaw.plain "US DOLLARS") = Currency.dollar ∧
    classify_currency_claim (CurrencyRaw.plain "US DOLLARS") =
      Currency.invalid := by
  refine ⟨?_, ?_⟩ <;> with_unfolding_all decide

/-- C6 (amended): currency classification is total and equals the amended
rule — accepted integer indices 0..4 with 1 and 2 mapping to dollar, labels
and plain text classified by case-insensitive substring containment of the
keywords (dollar checked first), everything else including the empty status
invalid — and an invalid classification aborts the call before any write:
error payload, HTTP 400, no API calls, no ledger write. -/
theorem currency_classification_amended_ok (c : CurrencyRaw)
    (item : ItemData) (subs : List Subitem) (ms : Option Nat) (env : Env)
    (hinv : classify_currency item.color_mks7xywc = Currency.invalid) :
    classify_currency c = classify_currency_amended c ∧
    (distribute_values item subs ms env).result = DistResult.invalid_currency ∧
    (distribute_values item subs ms env).result.status_code = 400 ∧
    (distribute_values item subs ms env).calls = [] ∧
    (distribute_values item subs ms env).ledger = none := by
  refine ⟨?_, ?_, ?_, ?_, ?_⟩
  · cases c with
    | empty => rfl
    | jsonOther => rfl
    | jsonIndex i =>
      simp [classify_currency, classify_currency_amended, List.mem_cons]
    | jsonLabel l =>
      simp [classify_currency, classify_currency_amended, labelClassify,
        dollarKeywords, euroKeywords, Bool.or_assoc]
    | plain s =>
      simp [classify_currency, classify_currency_amended, labelClassify,
        dollarKeywords, euroKeywords, Bool.or_assoc]
  all_goals simp [distribute_values, hinv, DistResult.status_code]

/-- Witness for the amended C6: the plain text "N/A" classifies as invalid
under both rules and the Scenario call with it aborts with 400 and no
writes. -/
theorem currency_classification_amended_ok_witness :
    classify_currency itemInvalid.color_mks7xywc = Currency.invalid ∧
    classify_currency (CurrencyRaw.plain "US DOLLARS") =
      classify_currency_amended (CurrencyRaw.plain "US DOLLARS") ∧
    (distribute_values itemInvalid subsA none envOK).result =
      DistResult.invalid_currency ∧
    (distribute_values itemInvalid subsA none envOK).result.status_code = 400 ∧
    (distribute_values itemInvalid subsA none envOK).calls = [] ∧
    (distribute_values itemInvalid subsA none envOK).ledger = none := by
  have h := currency_classification_amended_ok (CurrencyRaw.plain "US DOLLARS")
    itemInvalid subsA none envOK (by with_unfolding_all decide)
  exact ⟨by with_unfolding_all decide, h.1, h.2.1, h.2.2.1, h.2.2.2.1,
    h.2.2.2.2⟩

/-- C7: evaluation at the failing input.  The parent carries a positive
reserve of 100 under a valid (dollar) currency status, the only subitem is
not eligible, so the rerun distribution is a no-op (no eligible subitems, no
API call, nothing consumed) — yet the handler decides to clear the parent's
reserve columns, because the no-op payload has no `remaining_value` key and
`result.get("remaining_value", 0) > 0` reads false.  The same happens when
the rerun aborts with the invalid-currency error.  The reserve is wiped
without having been distributed, contradicting the claim (and the source's
own comment on lines 1524-1525) that it is cleared only when fully
consumed. -/
theorem reserve_cleared_after_noop :
    atualizar_reserva_de_cambio "p9" "Viagem" 100 7 (CurrencyRaw.jsonIndex 1)
      [subOther] envOK =
      ReservaResult.ran
        { result := DistResult.no_eligible, ledger := none, calls := [] }
        true ∧
    atualizar_reserva_de_cambio "p9" "Viagem" 100 7 (CurrencyRaw.plain "N/A")
      [subOther] envOK =
      ReservaResult.ran
        { result := DistResult.invalid_currency, ledger := none, calls := [] }
        true ∧
    should_clear_reserva DistResult.no_eligible = true := by
  refine ⟨?_, ?_, ?_⟩ <;> with_unfolding_all decide

/-- C8: the eligibility scan is the stable filter selecting exactly the
subitems whose extracted status text is the sentinel "Parte Terrestre
Internacional" and whose parsed saved amount is 0 (original order is
preserved, nothing is re-sorted), and a call on a non-empty subitem list
where nothing qualifies returns the no-op success message with HTTP 200,
not an error. -/
theorem eligibility_stable_filter (subs : List Subitem) (item : ItemData)
    (ms : Option Nat) (env : Env) :
    eligible_subitems subs = subs.filter (fun s =>
      decide (subitem_status_text s = some "Parte Terrestre Internacional") &&
      decide (subitem_saved_value s = 0)) ∧
    (classify_currency item.color_mks7xywc ≠ Currency.invalid →
      subs.isEmpty = false →
      eligible_subitems subs = [] →
      (distribute_values item subs ms env).result = DistResult.no_eligible ∧
      (distribute_values item subs ms env).result.status_code = 200 ∧
      (distribute_values item subs ms env).result.is_error = false) := by
  constructor
  · rw [eligible_subitems_eq_filter]
    rfl
  · intro hc hs hel
    refine ⟨?_, ?_, ?_⟩ <;>
      simp [distribute_values, hc, hs, hel, DistResult.status_code,
        DistResult.is_error]

/-- Witness for C8: a mixed list filters stably to its single eligible
member, and a list with no eligible member yields the 200 no-op outcome. -/
theorem eligibility_stable_filter_witness :
    eligible_subitems [subOther, subC] = [subC] ∧
    classify_currency itemA.color_mks7xywc ≠ Currency.invalid ∧
    ([subOther] : List Subitem).isEmpty = false ∧
    eligible_subitems [subOther] = [] ∧
    (distribute_values itemA [subOther] none envOK).result =
      DistResult.no_eligible ∧
    (distribute_values itemA [subOther] none envOK).result.status_code = 200 := by
  have h := (eligibility_stable_filter [subOther] itemA none envOK).2
    (by with_unfolding_all decide) (by with_unfolding_all decide)
    (by with_unfolding_all decide)
  exact ⟨by with_unfolding_all decide, by with_unfolding_all decide,
    by with_unfolding_all decide, by with_unfolding_all decide, h.1, h.2.1⟩

/-- C9: an eligible item whose deduction column parses to 0 or to a negative
number is skipped without any state change or logged call — the loop result
is the same as if the item were absent — and the remainder never increases
across any loop run, hence never exceeds the initial limit value. -/
theorem nonpositive_deduction_skipped (env : Env) (v : Rat) (ms : Option Nat)
    (s : Subitem) (h : subitem_deduction_value s ≤ 0) :
    (∀ (st : LoopState) (rest : List Subitem),
      distLoop env v ms st (s :: rest) = distLoop env v ms st rest) ∧
    (∀ (st : LoopState) (l : List Subitem),
      (distLoop env v ms st l).remaining ≤ st.remaining) ∧
    (∀ (L : Rat) (l : List Subitem),
      (distLoop env v ms (initState L) l).remaining ≤ L) := by
  refine ⟨?_, ?_, ?_⟩
  · intro st rest
    by_cases hle : st.remaining ≤ 0
    · rw [distLoop_stop env v ms st _ hle, distLoop_stop env v ms st rest hle]
    · have hd : ¬ 0 < subitem_deduction_value s := not_lt.2 h
      simp [distLoop, hle, hd]
  · intro st l
    exact distLoop_remaining_le env v ms l st
  · intro L l
    simpa [initState] using distLoop_remaining_le env v ms l (initState L)

/-- Witness for C9: a deduction string "0" parses to 0, the item is skipped
with the loop state untouched, and the remainder stays at the limit. -/
theorem nonpositive_deduction_skipped_witness :
    subitem_deduction_value subZero ≤ 0 ∧
    distLoop envOK 7 none (initState 50) [subZero] =
      distLoop envOK 7 none (initState 50) [] ∧
    (distLoop envOK 7 none (initState 50) [subZero]).remaining ≤ 50 := by
  have h := nonpositive_deduction_skipped envOK 7 none subZero
    (by with_unfolding_all decide)
  exact ⟨by with_unfolding_all decide, h.1 (initState 50) [],
    h.2.2 50 [subZero]⟩

/-- C10: the `operation_state` ledger is written, keyed by the parent item
id, exactly on the calls that reach the distribution loop: the three early
aborts (invalid currency, no subitems, no eligible subitems) leave it
untouched, and on the distributed path its fields are exactly the
`processed_subitems`, `remaining_value` and `reserva_saved` of the payload
returned to the caller. -/
theorem operation_state_ledger (item : ItemData) (subs : List Subitem)
    (ms : Option Nat) (env : Env) :
    (classify_currency item.color_mks7xywc = Currency.invalid →
      (distribute_values item subs ms env).ledger = none) ∧
    (subs.isEmpty = true → (distribute_values item subs ms env).ledger = none) ∧
    ((eligible_subitems subs).isEmpty = true →
      (distribute_values item subs ms env).ledger = none) ∧
    (∀ (p : List Entry) (r : Rat) (rs : PyVal),
      (distribute_values item subs ms env).result =
        DistResult.distributed p r rs →
      (distribute_values item subs ms env).ledger =
        some (item.id,
          { processed_subitems := p, remaining_value := r,
            reserva_saved := rs })) ∧
    ((distribute_values item subs ms env).ledger = none ∨
      ∃ p r rs, (distribute_values item subs ms env).result =
        DistResult.distributed p r rs) := by
  refine ⟨?_, ?_, ?_, ?_, ?_⟩
  · intro h
    simp [distribute_values, h]
  · intro h
    by_cases h1 : classify_currency item.color_mks7xywc = Currency.invalid <;>
      simp [distribute_values, h1, h]
  · intro h
    by_cases h1 : classify_currency item.color_mks7xywc = Currency.invalid <;>
      by_cases h2 : subs.isEmpty = true <;>
      simp [distribute_values, h1, h2, h]
  · intro p r rs h
    unfold distribute_values at h
    split_ifs at h with h1 h2 h3
    simp only [DistResult.distributed.injEq] at h
    obtain ⟨hp, hr, hs⟩ := h
    subst hp
    subst hr
    subst hs
    simp [distribute_values, h1, h2, h3]
  · by_cases h1 : classify_currency item.color_mks7xywc = Currency.invalid
    · left
      simp [distribute_values, h1]
    · by_cases h2 : subs.isEmpty = true
      · left
        simp [distribute_values, h1, h2]
      · by_cases h3 : (eligible_subitems subs).isEmpty = true
        · left
          simp [distribute_values, h1, h2, h3]
        · right
          have hres : (distribute_values item subs ms env).result =
              DistResult.distributed
                (distLoop env item.numeric_mksxcdva ms
                  (initState item.numeric_mks61nvq)
                  (eligible_subitems subs)).processed
                (distLoop env item.numeric_mksxcdva ms
                  (initState item.numeric_mks61nvq)
                  (eligible_subitems subs)).remaining
                (py_and_reserva
                  (distLoop env item.numeric_mksxcdva ms
                    (initState item.numeric_mks61nvq)
                    (eligible_subitems subs)).remaining
                  (distLoop env item.numeric_mksxcdva ms
                    (initState item.numeric_mks61nvq)
                    (eligible_subitems subs)).processed) := by
            simp [distribute_values, h1, h2, h3]
          exact ⟨_, _, _, hres⟩

/-- Witness for C10: the Scenario C call writes the ledger entry equal to
the returned payload, and the invalid-currency call leaves it unwritten. -/
theorem operation_state_ledger_witness :
    (distribute_values itemC [subC] none envOK).result =
      DistResult.distributed [entC] 10 (PyVal.pylist [entC]) ∧
    (distribute_values itemC [subC] none envOK).ledger =
      some (itemC.id,
        { processed_subitems := [entC], remaining_value := 10,
          reserva_saved := PyVal.pylist [entC] }) ∧
    (distribute_values itemInvalid [subC] none envOK).ledger = none := by
  have h := (operation_state_ledger itemC [subC] none envOK).2.2.2.1 [entC] 10
    (PyVal.pylist [entC]) (by with_unfolding_all decide)
  have h2 := (operation_state_ledger itemInvalid [subC] none envOK).1
    (by with_unfolding_all decide)
  exact ⟨by with_unfolding_all decide, h, h2⟩

end Distribuir
